import Mathlib

/-!
The `Firebase.h` include shims of currensee.

The repository holds two preprocessor-only headers:

* `ios/Runner/Firebase.h` (the variant without a fallback), and
* `patched_files/Firebase.h` (the variant with a quoted fallback).

Both are embedded below, directive by directive, as lists of `Directive`, and
read by a small model of the conditional inclusion of the C preprocessor
(`#ifndef`, `#define`, `#if __has_include(..)`, `#else`, `#endif`, `#import`).
The header search environment is the only input; the contents of the SDK
headers themselves are external and are not modelled: an executed `#import` is
recorded, and a header that cannot be found leaves a diagnostic (a missing file
is a fatal error: later diagnostics are suppressed).
-/

namespace Currensee

/-! ## Data model -/

/-- The two ways a header is named in `__has_include` and `#import`. -/
inductive Header where
  /-- Framework-style name `<path>`. -/
  | angle (path : String)
  /-- Quoted name `"path"`. -/
  | quoted (path : String)
deriving DecidableEq, Repr

/-- The file path written between the delimiters. -/
def Header.path : Header → String
  | .angle p => p
  | .quoted p => p

/-- The header search environment configured by the surrounding build: which
paths are found on the framework (angle-bracket) search path, and which are
found by the quote-only lookup (relative to the including file). -/
structure Env where
  framework : String → Bool
  quoted : String → Bool

/-- Header lookup.  `<p>` searches the framework path only; `"p"` searches the
quote-only locations first and then falls back to the search done for `<p>`. -/
def Env.resolves (env : Env) : Header → Bool
  | .angle p => env.framework p
  | .quoted p => env.quoted p || env.framework p

/-- The preprocessor directives that occur in the two shims. -/
inductive Directive where
  /-- Directive `#ifndef name`. -/
  | ppIfNotDefined (name : String)
  /-- Directive `#define name`. -/
  | ppDefine (name : String)
  /-- Directive `#if __has_include(h)`. -/
  | ppIfHasInclude (h : Header)
  /-- Directive `#else`. -/
  | ppElse
  /-- Directive `#endif`. -/
  | ppEndif
  /-- Directive `#import h`. -/
  | ppImport (h : Header)
deriving DecidableEq, Repr

/-- Diagnostics of the preprocessor. -/
inductive Diag where
  /-- An `#import` whose header is found nowhere (a fatal error). -/
  | fileNotFound (h : Header)
  | elseWithoutIf
  | elseAfterElse
  | endifWithoutIf
  | unterminatedConditional
deriving DecidableEq, Repr

/-- Only a missing file is fatal. -/
def Diag.isFatal : Diag → Bool
  | .fileNotFound _ => true
  | _ => false

/-- The state of a translation unit as far as the shims can touch it: the
macros defined, the `#import` directives executed so far (in order), and the
diagnostics issued so far (in order). -/
structure TU where
  defined : List String
  imports : List Header
  diags : List Diag
deriving DecidableEq, Repr

/-- A translation unit before anything was preprocessed. -/
def TU.fresh : TU := ⟨[], [], []⟩

/-- Issue a diagnostic.  After a fatal error every later diagnostic is
suppressed. -/
def TU.report (tu : TU) (d : Diag) : TU :=
  if tu.diags.any Diag.isFatal then tu else { tu with diags := tu.diags ++ [d] }

/-- One open conditional (`#ifndef` or `#if`) of the file being read. -/
structure CondFrame where
  /-- The group currently being read belongs to the taken branch. -/
  taking : Bool
  /-- An `#else` of this conditional was already read. -/
  seenElse : Bool
deriving DecidableEq, Repr

/-- Directives are executed only when every enclosing conditional is taking. -/
def active (stack : List CondFrame) : Bool :=
  stack.all CondFrame.taking

/-- Execute one directive.  Conditionals push and pop frames; `#define` and
`#import` act only in an active group.  An executed `#import` is recorded
whether or not its header is found; when it is not found the fatal
file-not-found error is issued at that directive and reading goes on with
later diagnostics suppressed. -/
def step (env : Env) : List CondFrame × TU → Directive → List CondFrame × TU
  | (stack, tu), .ppIfNotDefined name =>
      (⟨active stack && !(tu.defined.contains name), false⟩ :: stack, tu)
  | (stack, tu), .ppIfHasInclude h =>
      (⟨active stack && env.resolves h, false⟩ :: stack, tu)
  | (stack, tu), .ppDefine name =>
      if active stack then
        (stack, { tu with defined :=
          if tu.defined.contains name then tu.defined else name :: tu.defined })
      else (stack, tu)
  | (stack, tu), .ppImport h =>
      if active stack then
        let tu1 := { tu with imports := tu.imports ++ [h] }
        (stack, if env.resolves h then tu1 else tu1.report (.fileNotFound h))
      else (stack, tu)
  | ([], tu), .ppElse => ([], tu.report .elseWithoutIf)
  | (f :: stack, tu), .ppElse =>
      if f.seenElse then (f :: stack, tu.report .elseAfterElse)
      else (⟨!f.taking, true⟩ :: stack, tu)
  | ([], tu), .ppEndif => ([], tu.report .endifWithoutIf)
  | (_ :: stack, tu), .ppEndif => (stack, tu)

/-- Preprocess a whole file into the translation unit: run its directives in
order; a conditional still open at the end of the file is an error. -/
def includeFile (env : Env) (file : List Directive) (tu : TU) : TU :=
  match file.foldl (step env) ([], tu) with
  | ([], tu1) => tu1
  | (_ :: _, tu1) => tu1.report .unterminatedConditional

/-! ## The two headers -/

/-- The include guard used by both headers. -/
def Firebase_h : String := "Firebase_h"

def FirebaseCore : String := "FirebaseCore/FirebaseCore.h"
def FirebaseCrashlytics : String := "FirebaseCrashlytics/FirebaseCrashlytics.h"
def FirebaseAnalytics : String := "FirebaseAnalytics/FirebaseAnalytics.h"

/-- The directives of `ios/Runner/Firebase.h`, the variant without a
fallback. -/
def runnerFirebase_h : List Directive :=
  [ .ppIfNotDefined "Firebase_h",
    .ppDefine "Firebase_h",
    .ppIfHasInclude (.angle "FirebaseCore/FirebaseCore.h"),
      .ppImport (.angle "FirebaseCore/FirebaseCore.h"),
    .ppEndif,
    .ppIfHasInclude (.angle "FirebaseCrashlytics/FirebaseCrashlytics.h"),
      .ppImport (.angle "FirebaseCrashlytics/FirebaseCrashlytics.h"),
    .ppEndif,
    .ppIfHasInclude (.angle "FirebaseAnalytics/FirebaseAnalytics.h"),
      .ppImport (.angle "FirebaseAnalytics/FirebaseAnalytics.h"),
    .ppEndif,
    .ppEndif ]

/-- The directives of `patched_files/Firebase.h`, the variant with a quoted
fallback. -/
def patchedFirebase_h : List Directive :=
  [ .ppIfNotDefined "Firebase_h",
    .ppDefine "Firebase_h",
    .ppIfHasInclude (.angle "FirebaseCore/FirebaseCore.h"),
      .ppImport (.angle "FirebaseCore/FirebaseCore.h"),
    .ppElse,
      .ppImport (.quoted "FirebaseCore/FirebaseCore.h"),
    .ppEndif,
    .ppIfHasInclude (.angle "FirebaseCrashlytics/FirebaseCrashlytics.h"),
      .ppImport (.angle "FirebaseCrashlytics/FirebaseCrashlytics.h"),
    .ppElse,
      .ppImport (.quoted "FirebaseCrashlytics/FirebaseCrashlytics.h"),
    .ppEndif,
    .ppEndif ]

/-! ## Vocabulary of the specification -/

/-- The import directives a file added to the translation unit: what `after`
holds beyond the imports of `before`. -/
def emitted (before after : TU) : List Header :=
  after.imports.drop before.imports.length

/-- The diagnostics a file added to the translation unit. -/
def newDiags (before after : TU) : List Diag :=
  after.diags.drop before.diags.length

/-- An environment given by the lists of paths found on each search path. -/
def Env.ofLists (fw q : List String) : Env :=
  ⟨fun p => fw.contains p, fun p => q.contains p⟩

/-- The three SDK modules of the specification, by header path. -/
def sdkModules : List String :=
  [FirebaseCore, FirebaseCrashlytics, FirebaseAnalytics]

/-- The two header variants. -/
inductive Variant where
  /-- The variant without a fallback, `ios/Runner/Firebase.h`. -/
  | runner
  /-- The variant with a quoted fallback, `patched_files/Firebase.h`. -/
  | patched
deriving DecidableEq, Repr

/-- The directives of a variant. -/
def Variant.file : Variant → List Directive
  | .runner => runnerFirebase_h
  | .patched => patchedFirebase_h

/-- The module paths a file names in its `#import` directives, each once, in
order of first occurrence. -/
def importPaths (file : List Directive) : List String :=
  (file.filterMap fun d =>
    match d with
    | .ppImport h => some h.path
    | _ => none).eraseDups

/-- The file has a quoted `#import`, so it also searches the quote-only
locations. -/
def searchesQuoted (file : List Directive) : Bool :=
  file.any fun d =>
    match d with
    | .ppImport (.quoted _) => true
    | _ => false

/-- Path `p` is present on at least one of the search paths the file uses. -/
def present (env : Env) (file : List Directive) (p : String) : Bool :=
  env.framework p || (searchesQuoted file && env.quoted p)

/-- Some import in the list is an import of module path `p`. -/
def importsModule (hs : List Header) (p : String) : Bool :=
  hs.any fun h => h.path == p

/-- The import the patched header selects for a module. -/
def chosen (env : Env) (p : String) : Header :=
  if env.framework p then .angle p else .quoted p

/-- The diagnostic of a module whose header is found nowhere. -/
def missing (env : Env) (p : String) : List Diag :=
  if env.framework p || env.quoted p then [] else [.fileNotFound (.quoted p)]

/-- Every SDK header is found on both search paths. -/
def envAll : Env := Env.ofLists sdkModules sdkModules

/-- No SDK header is found anywhere. -/
def envNone : Env := Env.ofLists [] []

/-- FirebaseCore is found both ways, FirebaseCrashlytics only by the quoted
lookup, FirebaseAnalytics only on the framework path. -/
def envMixed : Env :=
  Env.ofLists [FirebaseCore, FirebaseAnalytics] [FirebaseCore, FirebaseCrashlytics]

/-! ## Run lemmas -/

@[simp] theorem report_defined (tu : TU) (d : Diag) : (tu.report d).defined = tu.defined := by
  unfold TU.report; split <;> rfl

@[simp] theorem report_imports (tu : TU) (d : Diag) : (tu.report d).imports = tu.imports := by
  unfold TU.report; split <;> rfl

theorem contains_of_mem {tu : TU} (h : Firebase_h ∈ tu.defined) :
    tu.defined.contains "Firebase_h" = true := by
  simpa [Firebase_h] using h

theorem contains_of_not_mem {tu : TU} (h : Firebase_h ∉ tu.defined) :
    tu.defined.contains "Firebase_h" = false := by
  simpa [Firebase_h] using h

/-- With the guard defined, the runner header changes nothing. -/
theorem runner_skip (env : Env) (tu : TU) (h : Firebase_h ∈ tu.defined) :
    includeFile env runnerFirebase_h tu = tu := by
  have h2 := contains_of_mem h
  simp only [includeFile, runnerFirebase_h, List.foldl_cons, List.foldl_nil, step, active,
    List.all_cons, List.all_nil, h2, Bool.and_true, Bool.true_and, Bool.not_false,
    Bool.not_true, Bool.and_false, Bool.false_and, if_true, if_false, Bool.false_eq_true]

/-- With the guard defined, the patched header changes nothing. -/
theorem patched_skip (env : Env) (tu : TU) (h : Firebase_h ∈ tu.defined) :
    includeFile env patchedFirebase_h tu = tu := by
  have h2 := contains_of_mem h
  simp only [includeFile, patchedFirebase_h, List.foldl_cons, List.foldl_nil, step, active,
    List.all_cons, List.all_nil, h2, Bool.and_true, Bool.true_and, Bool.not_false,
    Bool.not_true, Bool.and_false, Bool.false_and, if_true, if_false, Bool.false_eq_true]

/-- First inclusion of the runner header. -/
theorem runner_first (env : Env) (tu : TU) (h : Firebase_h ∉ tu.defined) :
    includeFile env runnerFirebase_h tu =
      { defined := Firebase_h :: tu.defined,
        imports := tu.imports ++
          ([FirebaseCore, FirebaseCrashlytics, FirebaseAnalytics].filter env.framework).map
            Header.angle,
        diags := tu.diags } := by
  have h2 := contains_of_not_mem h
  cases h1 : env.framework "FirebaseCore/FirebaseCore.h" <;>
  cases h3 : env.framework "FirebaseCrashlytics/FirebaseCrashlytics.h" <;>
  cases h4 : env.framework "FirebaseAnalytics/FirebaseAnalytics.h" <;>
  simp only [includeFile, runnerFirebase_h, List.foldl_cons, List.foldl_nil, step, active,
    List.all_cons, List.all_nil, h1, h2, h3, h4, Env.resolves, Bool.and_true, Bool.true_and,
    Bool.not_false, Bool.not_true, Bool.and_false, Bool.false_and, if_true, if_false,
    Firebase_h, FirebaseCore, FirebaseCrashlytics, FirebaseAnalytics, Bool.false_eq_true,
    List.filter_cons, List.filter_nil, List.map_cons, List.map_nil, List.append_nil,
    List.append_assoc, List.cons_append, List.nil_append]

theorem patched_first_defined (env : Env) (tu : TU) (h : Firebase_h ∉ tu.defined) :
    (includeFile env patchedFirebase_h tu).defined = Firebase_h :: tu.defined := by
  have h2 := contains_of_not_mem h
  cases h1 : env.framework "FirebaseCore/FirebaseCore.h" <;>
  cases h3 : env.framework "FirebaseCrashlytics/FirebaseCrashlytics.h" <;>
  simp only [includeFile, patchedFirebase_h, List.foldl_cons, List.foldl_nil, step, active,
    List.all_cons, List.all_nil, h1, h2, h3, Env.resolves, Bool.and_true, Bool.true_and,
    Bool.not_false, Bool.not_true, Bool.and_false, Bool.false_and, if_true, if_false,
    Firebase_h, Bool.false_eq_true, Bool.or_false, Bool.or_true, report_defined] <;>
  (try split) <;> (try split) <;> simp only [report_defined]

theorem patched_first_imports (env : Env) (tu : TU) (h : Firebase_h ∉ tu.defined) :
    (includeFile env patchedFirebase_h tu).imports =
      tu.imports ++ [chosen env FirebaseCore, chosen env FirebaseCrashlytics] := by
  have h2 := contains_of_not_mem h
  cases h1 : env.framework "FirebaseCore/FirebaseCore.h" <;>
  cases h3 : env.framework "FirebaseCrashlytics/FirebaseCrashlytics.h" <;>
  simp only [includeFile, patchedFirebase_h, List.foldl_cons, List.foldl_nil, step, active,
    List.all_cons, List.all_nil, h1, h2, h3, Env.resolves, Bool.and_true, Bool.true_and,
    Bool.not_false, Bool.not_true, Bool.and_false, Bool.false_and, if_true, if_false,
    Firebase_h, Bool.false_eq_true, Bool.or_false, Bool.or_true, report_imports, chosen,
    FirebaseCore, FirebaseCrashlytics] <;>
  (try split) <;> (try split) <;>
  simp only [report_imports, List.append_assoc, List.cons_append, List.nil_append]

theorem patched_first_diags (env : Env) (tu : TU) (h : Firebase_h ∉ tu.defined)
    (hd : tu.diags = []) :
    (includeFile env patchedFirebase_h tu).diags =
      (missing env FirebaseCore ++ missing env FirebaseCrashlytics).take 1 := by
  have h2 := contains_of_not_mem h
  cases h1 : env.framework "FirebaseCore/FirebaseCore.h" <;>
  cases h3 : env.framework "FirebaseCrashlytics/FirebaseCrashlytics.h" <;>
  cases h4 : env.quoted "FirebaseCore/FirebaseCore.h" <;>
  cases h5 : env.quoted "FirebaseCrashlytics/FirebaseCrashlytics.h" <;>
  simp only [includeFile, patchedFirebase_h, List.foldl_cons, List.foldl_nil, step, active,
    List.all_cons, List.all_nil, h1, h2, h3, h4, h5, Env.resolves, Bool.and_true,
    Bool.true_and, Bool.not_false, Bool.not_true, Bool.and_false, Bool.false_and, if_true,
    if_false, Firebase_h, Bool.false_eq_true, Bool.or_false, Bool.or_true, Bool.or_self,
    missing, FirebaseCore, FirebaseCrashlytics] <;>
  simp [TU.report, hd, Diag.isFatal]


theorem emitted_append (tu after : TU) (l : List Header)
    (h : after.imports = tu.imports ++ l) : emitted tu after = l := by
  simp [emitted, h]

theorem emitted_self (tu : TU) : emitted tu tu = [] := by
  simp [emitted]

/-- After either header was read the guard is defined. -/
theorem guard_defined_after (v : Variant) (env : Env) (tu : TU) :
    Firebase_h ∈ (includeFile env v.file tu).defined := by
  by_cases h : Firebase_h ∈ tu.defined
  · cases v
    · simpa [Variant.file, runner_skip env tu h] using h
    · simpa [Variant.file, patched_skip env tu h] using h
  · cases v
    · simp [Variant.file, runner_first env tu h]
    · simp [Variant.file, patched_first_defined env tu h]

/-- With the guard defined, either header changes nothing. -/
theorem variant_skip (v : Variant) (env : Env) (tu : TU) (h : Firebase_h ∈ tu.defined) :
    includeFile env v.file tu = tu := by
  cases v
  · exact runner_skip env tu h
  · exact patched_skip env tu h

/-! ## The claims -/

/-- C1: on a first inclusion of the fallback variant, in every environment, the
imports it adds are exactly one per named module, FirebaseCore then
FirebaseCrashlytics: the angle-bracket import when the framework path is
reachable (whatever the quoted lookup finds) and the quoted import otherwise.
Per module: exactly one import of it is emitted, the angle form is emitted iff
the framework path is reachable, the quoted form iff it is not. -/
theorem patched_selects_one_import (env : Env) (tu : TU) (h : Firebase_h ∉ tu.defined) :
    emitted tu (includeFile env patchedFirebase_h tu) =
        [ if env.framework FirebaseCore then Header.angle FirebaseCore
          else Header.quoted FirebaseCore,
          if env.framework FirebaseCrashlytics then Header.angle FirebaseCrashlytics
          else Header.quoted FirebaseCrashlytics ] ∧
    ∀ p ∈ [FirebaseCore, FirebaseCrashlytics],
      ((emitted tu (includeFile env patchedFirebase_h tu)).filter
          fun hdr => hdr.path == p).length = 1 ∧
      (Header.angle p ∈ emitted tu (includeFile env patchedFirebase_h tu) ↔
          env.framework p = true) ∧
      (Header.quoted p ∈ emitted tu (includeFile env patchedFirebase_h tu) ↔
          env.framework p = false) := by
  have he := emitted_append tu _ _ (patched_first_imports env tu h)
  rw [he]
  refine ⟨rfl, ?_⟩
  intro p hp
  simp only [FirebaseCore, FirebaseCrashlytics, List.mem_cons, List.mem_singleton,
    List.not_mem_nil, or_false] at hp ⊢
  rcases hp with rfl | rfl <;>
  cases h1 : env.framework "FirebaseCore/FirebaseCore.h" <;>
  cases h3 : env.framework "FirebaseCrashlytics/FirebaseCrashlytics.h" <;>
  simp [chosen, h1, h3, Header.path, List.filter]

/-- Witness of C1: FirebaseCore found both ways, FirebaseCrashlytics only by the
quoted lookup. -/
theorem patched_selects_one_import_witness :
    Firebase_h ∉ TU.fresh.defined ∧
    emitted TU.fresh (includeFile envMixed patchedFirebase_h TU.fresh) =
      [Header.angle FirebaseCore, Header.quoted FirebaseCrashlytics] :=
  ⟨by decide, (patched_selects_one_import envMixed TU.fresh (by decide)).1⟩

/-- C2: on a first inclusion of the variant without a fallback, in every
environment, no diagnostic is issued, the imports added are exactly the
angle-bracket imports of those of FirebaseCore, FirebaseCrashlytics,
FirebaseAnalytics whose framework header is reachable, in that order, and the
whole result is the same whatever the quoted lookup finds. -/
theorem runner_imports_reachable_frameworks (env : Env) (tu : TU)
    (h : Firebase_h ∉ tu.defined) :
    (includeFile env runnerFirebase_h tu).diags = tu.diags ∧
    newDiags tu (includeFile env runnerFirebase_h tu) = [] ∧
    emitted tu (includeFile env runnerFirebase_h tu) =
      ([FirebaseCore, FirebaseCrashlytics, FirebaseAnalytics].filter env.framework).map
        Header.angle ∧
    ∀ q : String → Bool,
      includeFile ⟨env.framework, q⟩ runnerFirebase_h tu =
        includeFile env runnerFirebase_h tu := by
  refine ⟨?_, ?_, ?_, ?_⟩
  · rw [runner_first env tu h]
  · simp [newDiags, runner_first env tu h]
  · exact emitted_append tu _ _ (by rw [runner_first env tu h])
  · intro q
    rw [runner_first env tu h, runner_first ⟨env.framework, q⟩ tu h]

/-- Witness of C2: only FirebaseCore and FirebaseAnalytics are on the framework
path; FirebaseCrashlytics, found by the quoted lookup only, is skipped. -/
theorem runner_imports_reachable_frameworks_witness :
    Firebase_h ∉ TU.fresh.defined ∧
    (includeFile envMixed runnerFirebase_h TU.fresh).diags = [] ∧
    emitted TU.fresh (includeFile envMixed runnerFirebase_h TU.fresh) =
      [Header.angle FirebaseCore, Header.angle FirebaseAnalytics] :=
  ⟨by decide, (runner_imports_reachable_frameworks envMixed TU.fresh (by decide)).1,
    (runner_imports_reachable_frameworks envMixed TU.fresh (by decide)).2.2.1⟩

/-- C3: in a translation unit without errors so far, on a first inclusion: when
no SDK header is found on either search path, the variant without a fallback
issues no diagnostic and emits no import, while the fallback variant fails with
the file-not-found error of its quoted import of FirebaseCore, an import of the
shim itself; and in every environment the fallback variant fails iff one of
FirebaseCore, FirebaseCrashlytics is found on neither path. -/
theorem missing_sdk_outcomes (env : Env) (tu : TU) (h : Firebase_h ∉ tu.defined)
    (hd : tu.diags = []) :
    ((∀ p ∈ sdkModules, env.framework p = false ∧ env.quoted p = false) →
      (includeFile env runnerFirebase_h tu).diags = [] ∧
      emitted tu (includeFile env runnerFirebase_h tu) = [] ∧
      (includeFile env patchedFirebase_h tu).diags =
        [Diag.fileNotFound (Header.quoted FirebaseCore)] ∧
      Header.quoted FirebaseCore ∈ emitted tu (includeFile env patchedFirebase_h tu) ∧
      Directive.ppImport (Header.quoted FirebaseCore) ∈ patchedFirebase_h) ∧
    ((includeFile env patchedFirebase_h tu).diags ≠ [] ↔
      ∃ p ∈ [FirebaseCore, FirebaseCrashlytics],
        env.framework p = false ∧ env.quoted p = false) := by
  have he := emitted_append tu _ _ (patched_first_imports env tu h)
  have hr := emitted_append tu (includeFile env runnerFirebase_h tu) _
    (by rw [runner_first env tu h])
  rw [he, hr, patched_first_diags env tu h hd, runner_first env tu h]
  constructor
  · intro hall
    have h1 := hall FirebaseCore (by simp [sdkModules])
    have h2 := hall FirebaseCrashlytics (by simp [sdkModules])
    have h3 := hall FirebaseAnalytics (by simp [sdkModules])
    simp only [FirebaseCore, FirebaseCrashlytics, FirebaseAnalytics] at h1 h2 h3 ⊢
    simp [h1, h2, h3, hd, missing, chosen, patchedFirebase_h]
  · simp only [FirebaseCore, FirebaseCrashlytics]
    cases h1 : env.framework "FirebaseCore/FirebaseCore.h" <;>
    cases h2 : env.framework "FirebaseCrashlytics/FirebaseCrashlytics.h" <;>
    cases h3 : env.quoted "FirebaseCore/FirebaseCore.h" <;>
    cases h4 : env.quoted "FirebaseCrashlytics/FirebaseCrashlytics.h" <;>
    simp [missing, h1, h2, h3, h4]

/-- Witness of C3: the environment without any SDK header. -/
theorem missing_sdk_outcomes_witness :
    Firebase_h ∉ TU.fresh.defined ∧ TU.fresh.diags = [] ∧
    (∀ p ∈ sdkModules, envNone.framework p = false ∧ envNone.quoted p = false) ∧
    (includeFile envNone runnerFirebase_h TU.fresh).diags = [] ∧
    emitted TU.fresh (includeFile envNone runnerFirebase_h TU.fresh) = [] ∧
    (includeFile envNone patchedFirebase_h TU.fresh).diags =
      [Diag.fileNotFound (Header.quoted FirebaseCore)] :=
  have hw := (missing_sdk_outcomes envNone TU.fresh (by decide) rfl).1 (by decide)
  ⟨by decide, rfl, by decide, hw.1, hw.2.1, hw.2.2.1⟩

/-- C4, as stated, fails: with every SDK header present on both search paths the
fallback variant preprocesses without error, yet it emits no import of
FirebaseAnalytics. -/
theorem patched_never_imports_analytics :
    (∀ p ∈ sdkModules, present envAll patchedFirebase_h p = true) ∧
    ¬ ((includeFile envAll patchedFirebase_h TU.fresh).diags = [] ∧
        ∀ p ∈ sdkModules,
          importsModule (emitted TU.fresh (includeFile envAll patchedFirebase_h TU.fresh)) p
            = true) := by
  decide

/-- C4, amended: the modules a variant names are FirebaseCore,
FirebaseCrashlytics, FirebaseAnalytics for the variant without a fallback and
FirebaseCore, FirebaseCrashlytics for the fallback variant; on a first
inclusion into a translation unit without errors, when each module the variant
names is present on at least one of the paths the variant searches, no
diagnostic is issued and for each such module an import that resolves is
emitted. -/
theorem named_modules_imported (v : Variant) (env : Env) (tu : TU)
    (h : Firebase_h ∉ tu.defined) (hd : tu.diags = [])
    (hp : ∀ p ∈ importPaths v.file, present env v.file p = true) :
    (importPaths runnerFirebase_h = sdkModules ∧
      importPaths patchedFirebase_h = [FirebaseCore, FirebaseCrashlytics]) ∧
    (includeFile env v.file tu).diags = [] ∧
    ∀ p ∈ importPaths v.file,
      ∃ hdr ∈ emitted tu (includeFile env v.file tu),
        hdr.path = p ∧ env.resolves hdr = true := by
  have hnr : importPaths runnerFirebase_h = sdkModules := by decide
  have hnp : importPaths patchedFirebase_h = [FirebaseCore, FirebaseCrashlytics] := by decide
  refine ⟨⟨hnr, hnp⟩, ?_⟩
  cases v
  · have he := emitted_append tu (includeFile env runnerFirebase_h tu) _
      (by rw [runner_first env tu h])
    simp only [Variant.file] at hp ⊢
    rw [he, runner_first env tu h, hnr]
    rw [hnr] at hp
    have h1 := hp FirebaseCore (by simp [sdkModules])
    have h2 := hp FirebaseCrashlytics (by simp [sdkModules])
    have h3 := hp FirebaseAnalytics (by simp [sdkModules])
    have hq : searchesQuoted runnerFirebase_h = false := by decide
    simp only [present, hq, Bool.false_and, Bool.or_false] at h1 h2 h3
    refine ⟨hd, ?_⟩
    intro p hm
    simp only [sdkModules, List.mem_cons, List.mem_singleton, List.not_mem_nil,
      or_false] at hm
    refine ⟨Header.angle p, ?_, rfl, ?_⟩
    · rcases hm with rfl | rfl | rfl <;> simp [h1, h2, h3]
    · rcases hm with rfl | rfl | rfl <;> simp [Env.resolves, h1, h2, h3]
  · have he := emitted_append tu _ _ (patched_first_imports env tu h)
    simp only [Variant.file] at hp ⊢
    rw [he, patched_first_diags env tu h hd, hnp]
    rw [hnp] at hp
    have h1 := hp FirebaseCore (by simp)
    have h2 := hp FirebaseCrashlytics (by simp)
    have hq : searchesQuoted patchedFirebase_h = true := by decide
    simp only [present, hq, Bool.true_and] at h1 h2
    refine ⟨by simp [missing, h1, h2], ?_⟩
    intro p hm
    simp only [List.mem_cons, List.mem_singleton, List.not_mem_nil, or_false] at hm
    refine ⟨chosen env p, ?_, ?_, ?_⟩
    · rcases hm with rfl | rfl <;> simp
    · unfold chosen; split <;> rfl
    · rcases hm with rfl | rfl
      · cases hf : env.framework FirebaseCore
        · simpa [chosen, Env.resolves, hf] using h1
        · simp [chosen, Env.resolves, hf]
      · cases hf : env.framework FirebaseCrashlytics
        · simpa [chosen, Env.resolves, hf] using h2
        · simp [chosen, Env.resolves, hf]

/-- Witness of the amended C4: the fallback variant where FirebaseCore is on the
framework path and FirebaseCrashlytics is found by the quoted lookup only. -/
theorem named_modules_imported_witness :
    Firebase_h ∉ TU.fresh.defined ∧ TU.fresh.diags = [] ∧
    (∀ p ∈ importPaths Variant.patched.file,
        present envMixed Variant.patched.file p = true) ∧
    (includeFile envMixed Variant.patched.file TU.fresh).diags = [] ∧
    ∀ p ∈ importPaths Variant.patched.file,
      ∃ hdr ∈ emitted TU.fresh (includeFile envMixed Variant.patched.file TU.fresh),
        hdr.path = p ∧ envMixed.resolves hdr = true :=
  ⟨by decide, rfl, by decide,
    (named_modules_imported Variant.patched envMixed TU.fresh (by decide) rfl
      (by decide)).2⟩

/-- C5: for either variant, every environment and every translation unit, after
a first inclusion the guard `Firebase_h` is defined, and a second inclusion
emits no import, issues no diagnostic and returns the translation unit
unchanged.  This holds whether or not the first inclusion succeeded. -/
theorem double_inclusion_idempotent (v : Variant) (env : Env) (tu : TU) :
    Firebase_h ∈ (includeFile env v.file tu).defined ∧
    emitted (includeFile env v.file tu)
      (includeFile env v.file (includeFile env v.file tu)) = [] ∧
    newDiags (includeFile env v.file tu)
      (includeFile env v.file (includeFile env v.file tu)) = [] ∧
    includeFile env v.file (includeFile env v.file tu) = includeFile env v.file tu := by
  have hg := guard_defined_after v env tu
  have hs := variant_skip v env _ hg
  rw [hs]
  exact ⟨hg, emitted_self _, by simp [newDiags], rfl⟩

/-- C6, as stated, fails: with the framework header of every module reachable,
the variant without a fallback emits three imports and the fallback variant
two. -/
theorem variants_differ_on_analytics :
    (∀ p ∈ sdkModules, envAll.framework p = true) ∧
    emitted TU.fresh (includeFile envAll patchedFirebase_h TU.fresh) ≠
      emitted TU.fresh (includeFile envAll runnerFirebase_h TU.fresh) ∧
    emitted TU.fresh (includeFile envAll runnerFirebase_h TU.fresh) =
      [Header.angle FirebaseCore, Header.angle FirebaseCrashlytics,
        Header.angle FirebaseAnalytics] ∧
    emitted TU.fresh (includeFile envAll patchedFirebase_h TU.fresh) =
      [Header.angle FirebaseCore, Header.angle FirebaseCrashlytics] := by
  decide

/-- C6, amended: the fallback variant names FirebaseCore and FirebaseCrashlytics
only.  On a first inclusion, in every environment where the framework headers
of FirebaseCore and FirebaseCrashlytics are reachable, the variant without a
fallback emits the imports of the fallback variant followed by the
angle-bracket import of FirebaseAnalytics when that framework header is
reachable. -/
theorem runner_extends_patched (env : Env) (tu : TU) (h : Firebase_h ∉ tu.defined)
    (hc : env.framework FirebaseCore = true)
    (hk : env.framework FirebaseCrashlytics = true) :
    importPaths patchedFirebase_h = [FirebaseCore, FirebaseCrashlytics] ∧
    emitted tu (includeFile env runnerFirebase_h tu) =
      emitted tu (includeFile env patchedFirebase_h tu) ++
        (if env.framework FirebaseAnalytics then [Header.angle FirebaseAnalytics] else []) := by
  have he := emitted_append tu _ _ (patched_first_imports env tu h)
  have hr := emitted_append tu (includeFile env runnerFirebase_h tu) _
    (by rw [runner_first env tu h])
  rw [he, hr]
  refine ⟨by decide, ?_⟩
  cases ha : env.framework FirebaseAnalytics <;>
  simp [chosen, hc, hk, ha, List.filter]

/-- Witness of the amended C6: every framework header reachable. -/
theorem runner_extends_patched_witness :
    Firebase_h ∉ TU.fresh.defined ∧ envAll.framework FirebaseCore = true ∧
    envAll.framework FirebaseCrashlytics = true ∧
    emitted TU.fresh (includeFile envAll runnerFirebase_h TU.fresh) =
      emitted TU.fresh (includeFile envAll patchedFirebase_h TU.fresh) ++
        [Header.angle FirebaseAnalytics] :=
  ⟨by decide, by decide, by decide,
    (runner_extends_patched envAll TU.fresh (by decide) (by decide) (by decide)).2⟩

/-- C7: for either variant, every environment and every translation unit, the
macros defined after the inclusion are those defined before plus `Firebase_h`:
the list is unchanged when `Firebase_h` was already defined, and gains
`Firebase_h` alone otherwise. -/
theorem shim_defines_only_guard (v : Variant) (env : Env) (tu : TU) :
    (includeFile env v.file tu).defined =
      (if Firebase_h ∈ tu.defined then tu.defined else Firebase_h :: tu.defined) ∧
    ∀ n, n ∈ (includeFile env v.file tu).defined ↔ n = Firebase_h ∨ n ∈ tu.defined := by
  by_cases h : Firebase_h ∈ tu.defined
  · rw [variant_skip v env tu h]
    refine ⟨by simp [h], ?_⟩
    intro n
    constructor
    · exact Or.inr
    · rintro (rfl | hn)
      · exact h
      · exact hn
  · have hdef : (includeFile env v.file tu).defined = Firebase_h :: tu.defined := by
      cases v
      · simp [Variant.file, runner_first env tu h]
      · simp [Variant.file, patched_first_defined env tu h]
    rw [hdef]
    exact ⟨by simp [h], by simp⟩

/-- C8: both headers open with `#ifndef Firebase_h`, so whichever variant is
included second changes nothing; after the fallback variant, including the
variant without a fallback emits no import, and no import of FirebaseAnalytics
is emitted by the two inclusions together, in every environment. -/
theorem shared_guard_second_skipped (env : Env) (tu : TU) :
    (runnerFirebase_h.head? = some (Directive.ppIfNotDefined Firebase_h) ∧
      patchedFirebase_h.head? = some (Directive.ppIfNotDefined Firebase_h)) ∧
    (∀ v w : Variant,
      includeFile env w.file (includeFile env v.file tu) = includeFile env v.file tu) ∧
    emitted (includeFile env patchedFirebase_h tu)
      (includeFile env runnerFirebase_h (includeFile env patchedFirebase_h tu)) = [] ∧
    importsModule
      (emitted tu (includeFile env runnerFirebase_h (includeFile env patchedFirebase_h tu)))
      FirebaseAnalytics = false := by
  have hskip : ∀ v w : Variant,
      includeFile env w.file (includeFile env v.file tu) = includeFile env v.file tu :=
    fun v w => variant_skip w env _ (guard_defined_after v env tu)
  have hpr := hskip Variant.patched Variant.runner
  simp only [Variant.file] at hpr
  refine ⟨⟨by decide, by decide⟩, hskip, ?_, ?_⟩
  · rw [hpr]; exact emitted_self _
  · rw [hpr]
    by_cases h : Firebase_h ∈ tu.defined
    · rw [patched_skip env tu h, emitted_self]; rfl
    · rw [emitted_append tu _ _ (patched_first_imports env tu h)]
      simp only [FirebaseCore, FirebaseCrashlytics, FirebaseAnalytics]
      cases h1 : env.framework "FirebaseCore/FirebaseCore.h" <;>
      cases h3 : env.framework "FirebaseCrashlytics/FirebaseCrashlytics.h" <;>
      simp [importsModule, chosen, h1, h3, Header.path]

end Currensee
